import Mathlib

/-!
# Verification of `generate-thumbnails.js`

A shallow embedding of the thumbnail-generation script.  The script's
effectful collaborators (the filesystem via `fs-extra` and the image codec
via `sharp`) are modelled as oracle functions supplied in an environment
record; console output is modelled as a list of log events; `sharp`
pipelines are modelled as request descriptors (the resize/encode options the
script passes to the library), since the codec itself is an external black
box.  Machine integers do not overflow in the script's ranges, so byte
counts are `Nat` and the savings percentage is `Rat`; the one division the
script performs unguarded is modelled with `Option Rat`, `none` standing for
the non-finite JS number (`NaN` or `±Infinity`) produced by dividing by zero.
-/

namespace WebImage

/-- A size spec from `config.sizes`: `{ width, height, suffix }`. -/
structure SizeSpec where
  width : Nat
  height : Nat
  suffix : String
deriving Repr, DecidableEq

/-- The `config.quality` record: per-format quality levels. -/
structure Quality where
  jpg : Nat
  webp : Nat
  avif : Nat
deriving Repr, DecidableEq

/-- The script's `config` object. -/
structure Config where
  inputDir : String
  outputDir : String
  sizes : List SizeSpec
  formats : List String
  quality : Quality
deriving Repr

/-- The literal `config` value at the top of `generate-thumbnails.js`. -/
def defaultConfig : Config :=
  { inputDir := "./image"
    outputDir := "./image/thumb"
    sizes := [⟨80, 80, ""⟩, ⟨160, 160, "@2x"⟩]
    formats := ["jpg", "webp", "avif"]
    quality := ⟨85, 80, 70⟩ }

/-- Index of the last `.` in a list of characters, if any. -/
def lastDotIdx (cs : List Char) : Option Nat :=
  match cs with
  | [] => none
  | c :: rest =>
    match lastDotIdx rest with
    | some i => some (i + 1)
    | none => if c = '.' then some 0 else none

/-- `path.extname` on a plain basename (as returned by `fs.readdir`, so never
`"."` or `".."`): the substring from the last dot, or `""` when there is no
dot or the only dot is the leading character (dotfiles have no extension). -/
def extname (s : String) : String :=
  match lastDotIdx s.toList with
  | none => ""
  | some 0 => ""
  | some i => ⟨s.toList.drop i⟩

/-- `path.parse(file).name`: the basename with its `extname` removed. -/
def parseName (s : String) : String :=
  match lastDotIdx s.toList with
  | none => s
  | some 0 => s
  | some i => ⟨s.toList.take i⟩

/-- `path.join(a, b)`.  Node also normalizes a leading `"./"` away; that
normalization is immaterial here because joined paths are only ever used as
opaque keys into the oracle filesystem, so we keep plain concatenation. -/
def joinPath (a b : String) : String :=
  a ++ "/" ++ b

/-- The extension whitelist in `generateThumbnails`'s filter. -/
def imageExts : List String := [".jpg", ".jpeg", ".png", ".webp"]

/-- `.toLowerCase()`, character by character.  The extensions compared
against are ASCII, for which JS `toLowerCase` and `Char.toLower` agree. -/
def lowerStr (s : String) : String :=
  ⟨s.data.map Char.toLower⟩

/-- The filter predicate: `['.jpg','.jpeg','.png','.webp'].includes(path.extname(file).toLowerCase())`. -/
def isImageFile (file : String) : Bool :=
  imageExts.contains (lowerStr (extname file))

/-- `files.filter(...)`: the recognized image files of a directory listing. -/
def imageFilesOf (files : List String) : List String :=
  files.filter isImageFile

/-- The encode options the script sets on a `sharp` pipeline (the argument of
`.jpeg(...)`, `.webp(...)` or `.avif(...)`); `fromExtension` marks the switch
falling through with no encoder selected, in which case `sharp` infers the
format from the output extension. -/
inductive EncodeOpts where
  | jpeg (quality : Nat) (progressive mozjpeg : Bool)
  | webp (quality effort : Nat)
  | avif (quality effort : Nat)
  | fromExtension
deriving Repr, DecidableEq

/-- A `sharp` pipeline descriptor: input path, the `.resize` arguments, and
the encode options.  `position = none` when no `position` option was given. -/
structure Pipeline where
  input : String
  width : Nat
  height : Nat
  fit : String
  position : Option String
  encode : EncodeOpts
deriving Repr, DecidableEq

/-- The resize stage built in `generateThumbnails`:
`sharp(inputPath).resize(w, h, { fit: 'cover', position: 'center' })`. -/
def basePipeline (inputPath : String) (size : SizeSpec) : Pipeline :=
  { input := inputPath
    width := size.width
    height := size.height
    fit := "cover"
    position := some "center"
    encode := .fromExtension }

/-- The `switch (format)` in `generateThumbnails`: format-specific encode
options (`jpg`/`jpeg` use mozjpeg progressive JPEG, `webp` effort 6,
`avif` effort 4; any other format leaves the encoder unset). -/
def applyFormat (q : Quality) (format : String) (p : Pipeline) : Pipeline :=
  if format = "jpg" ∨ format = "jpeg" then
    { p with encode := .jpeg q.jpg true true }
  else if format = "webp" then
    { p with encode := .webp q.webp 6 }
  else if format = "avif" then
    { p with encode := .avif q.avif 4 }
  else p

/-- One `pipeline.toFile(outputPath)` call that succeeded: the path written
and the pipeline whose rendering the file now contains. -/
structure WriteEvent where
  path : String
  pipeline : Pipeline
deriving Repr, DecidableEq

/-- A row of the benchmark's `console.table`. -/
structure BenchRow where
  format : String
  size : String
  time : String
deriving Repr, DecidableEq

/-- Console output events.  Lines whose only interesting content is numeric
carry the numbers directly (their decimal rendering in JS goes through
float `toFixed`, which no claim depends on). -/
inductive LogLine where
  /-- a plain `console.log` line -/
  | raw (s : String)
  /-- `🔄 Processing: <file>` -/
  | processing (file : String)
  /-- `  ✅ <filename> (<MB>MB)` with the stat'ed byte size -/
  | taskOk (filename : String) (bytes : Nat)
  /-- `  ❌ Failed: <filename> - <message>` -/
  | taskFail (filename : String) (message : String)
  /-- `💾 Size reduction: ...` with the two byte totals -/
  | savingsLine (totalOriginal totalThumb : Nat)
  /-- `⚠️ ...` warning -/
  | warn (s : String)
  /-- a `console.error` line -/
  | errorLog (s : String)
  /-- `console.table(results)` -/
  | table (rows : List BenchRow)
deriving Repr, DecidableEq

/-- The effectful collaborators of `generateThumbnails`, as oracles.
`toFile` is `pipeline.toFile(path)`; `statSize` is `fs.stat(path).size`;
`readdirOutput` is the re-scan `fs.readdir(config.outputDir)` performed by
the reporting step; `elapsedMs` is the wall-clock time of the run. -/
structure FsEnv where
  ensureDirOk : Except String Unit
  readdirInput : Except String (List String)
  toFile : String → Pipeline → Except String Unit
  statSize : String → Except String Nat
  readdirOutput : Except String (List String)
  elapsedMs : Nat

/-- The outcome of one `(file, size, format)` iteration of the inner loop:
the lines logged, the write performed (if `toFile` succeeded), and the
increment of `totalProcessed` (1 only when the `✅` line was reached). -/
structure TaskOut where
  logs : List LogLine
  write : Option WriteEvent
  processed : Nat
deriving Repr, DecidableEq

/-- The `try`-block body of the inner loop for one `(file, size, format)`
triple: build the pipeline, `toFile` it, `stat` the result; either failure is
caught and logged as `❌ Failed: <outputFilename> - <message>`.  When `toFile`
succeeded but `stat` failed, the file was nevertheless written. -/
def runTask (cfg : Config) (env : FsEnv) (file : String) (size : SizeSpec)
    (format : String) : TaskOut :=
  let basename := parseName file
  let inputPath := joinPath cfg.inputDir file
  let outputFilename := basename ++ size.suffix ++ "." ++ format
  let outputPath := joinPath cfg.outputDir outputFilename
  let pipeline := applyFormat cfg.quality format (basePipeline inputPath size)
  match env.toFile outputPath pipeline with
  | .error e => ⟨[.taskFail outputFilename e], none, 0⟩
  | .ok _ =>
    match env.statSize outputPath with
    | .error e => ⟨[.taskFail outputFilename e], some ⟨outputPath, pipeline⟩, 0⟩
    | .ok sz => ⟨[.taskOk outputFilename sz], some ⟨outputPath, pipeline⟩, 1⟩

/-- The two nested inner loops (`for size … for format …`) for one file. -/
def fileOuts (cfg : Config) (env : FsEnv) (file : String) : List TaskOut :=
  cfg.sizes.flatMap fun size => cfg.formats.map fun format =>
    runTask cfg env file size format

/-- Console output of the whole `for (const file of imageFiles)` loop. -/
def loopLogs (cfg : Config) (env : FsEnv) (imgs : List String) : List LogLine :=
  imgs.flatMap fun file =>
    .processing file :: (fileOuts cfg env file).flatMap TaskOut.logs

/-- The writes performed by the whole loop, in order. -/
def loopWrites (cfg : Config) (env : FsEnv) (imgs : List String) : List WriteEvent :=
  imgs.flatMap fun file => (fileOuts cfg env file).filterMap TaskOut.write

/-- The final value of the `totalProcessed` counter. -/
def loopProcessed (cfg : Config) (env : FsEnv) (imgs : List String) : Nat :=
  ((imgs.flatMap (fileOuts cfg env)).map TaskOut.processed).sum

/-- The banner `console.log`s printed before the loop. -/
def headerLogs (cfg : Config) (imgs : List String) : List LogLine :=
  [ .raw ("📸 Found " ++ toString imgs.length ++ " images to process")
  , .raw ("🎯 Output directory: " ++ cfg.outputDir)
  , .raw ("📐 Generating sizes: " ++ String.intercalate ", "
      (cfg.sizes.map fun s => toString s.width ++ "x" ++ toString s.height ++ s.suffix))
  , .raw ("🎨 Formats: " ++ String.intercalate ", " cfg.formats)
  , .raw "" ]

/-- `(ms / 1000).toFixed(2)`, rendered by exact decimal arithmetic (JS does
this through binary floats; the difference is below the printed precision
for the script's ranges and no claim depends on this line). -/
def secondsStr (ms : Nat) : String :=
  let c := (ms + 5) / 10
  toString (c / 100) ++ "." ++ (if c % 100 < 10 then "0" else "") ++ toString (c % 100)

/-- The `🎉 Complete! …` summary `console.log`s printed after the loop. -/
def summaryLogs (cfg : Config) (env : FsEnv) (processed : Nat) : List LogLine :=
  [ .raw ""
  , .raw ("🎉 Complete! Generated " ++ toString processed ++ " thumbnails in "
      ++ secondsStr env.elapsedMs ++ "s")
  , .raw ("📁 Thumbnails saved to: " ++ cfg.outputDir) ]

/-- `Promise.all(paths.map(p => fs.stat(p).size))`: every stat must succeed;
the first rejection rejects the whole batch (out to the top-level `catch`). -/
def statAll (stat : String → Except String Nat) : List String → Except String (List Nat)
  | [] => .ok []
  | p :: ps =>
    match stat p with
    | .error e => .error e
    | .ok n =>
      match statAll stat ps with
      | .error e => .error e
      | .ok ns => .ok (n :: ns)

/-- `(totalOriginalSize - totalThumbSize) / totalOriginalSize * 100`, with JS
number semantics at the edge: dividing by zero yields no finite value
(`NaN` when the numerator is also zero, `-Infinity` otherwise), modelled as
`none`. -/
def jsPercent (totalOriginal totalThumb : Nat) : Option Rat :=
  if totalOriginal = 0 then none
  else some (((totalOriginal : Rat) - (totalThumb : Rat)) / (totalOriginal : Rat) * 100)

/-- The observable result of one `generateThumbnails()` call: console output,
the files written, the final `totalProcessed`, the reporting step's numbers
(`none` when a top-level error aborted the run before the report), and
`process.exit` code if called. -/
structure GenResult where
  logs : List LogLine
  writes : List WriteEvent
  totalProcessed : Nat
  report : Option (Nat × Nat × Option Rat)
  exitCode : Option Nat
deriving Repr

/-- The top-level `catch` of `generateThumbnails`: `console.error('❌ Error:',
e.message)` then `process.exit(1)`.  Console output already emitted and files
already written are kept. -/
def topError (logs : List LogLine) (writes : List WriteEvent) (processed : Nat)
    (e : String) : GenResult :=
  { logs := logs ++ [.errorLog ("❌ Error: " ++ e)]
    writes := writes
    totalProcessed := processed
    report := none
    exitCode := some 1 }

/-- `generateThumbnails()`: ensure the output directory, list and filter the
input directory, run every `(file, size, format)` task with per-task error
catching, then re-stat the image files, re-scan the output directory and
report the size reduction.  Any failure outside the per-task `try` lands in
the top-level `catch`. -/
def generateThumbnails (cfg : Config) (env : FsEnv) : GenResult :=
  match env.ensureDirOk with
  | .error e => topError [] [] 0 e
  | .ok _ =>
    match env.readdirInput with
    | .error e => topError [] [] 0 e
    | .ok files =>
      let imgs := imageFilesOf files
      let processed := loopProcessed cfg env imgs
      let pre := headerLogs cfg imgs ++ loopLogs cfg env imgs
        ++ summaryLogs cfg env processed
      let writes := loopWrites cfg env imgs
      match statAll env.statSize (imgs.map (joinPath cfg.inputDir)) with
      | .error e => topError pre writes processed e
      | .ok origSizes =>
        let totalOriginal := origSizes.sum
        match env.readdirOutput with
        | .error e => topError pre writes processed e
        | .ok thumbFiles =>
          match statAll env.statSize (thumbFiles.map (joinPath cfg.outputDir)) with
          | .error e => topError pre writes processed e
          | .ok thumbSizes =>
            let totalThumb := thumbSizes.sum
            { logs := pre ++ [.savingsLine totalOriginal totalThumb]
              writes := writes
              totalProcessed := processed
              report := some (totalOriginal, totalThumb, jsPercent totalOriginal totalThumb)
              exitCode := none }

/-- The effectful collaborators of `benchmarkFormats`.  `pathExists` is
`fs.pathExists(testImage)` (which can itself reject); `removeFile` is
`fs.remove(tempPath)`; `elapsed format` is the measured `Date.now() - start`
for that format's iteration. -/
structure BenchEnv where
  pathExists : String → Except String Bool
  toFile : String → Pipeline → Except String Unit
  statSize : String → Except String Nat
  removeFile : String → Except String Unit
  elapsed : String → Nat

/-- The benchmark's `switch (format)`: plain quality-only encode options
(`jpg` only — no `jpeg` case — and no `effort`/`progressive`/`mozjpeg`
options, whose `sharp` defaults are effort 4 for webp and avif and
non-progressive non-mozjpeg for jpeg). -/
def benchApplyFormat (q : Quality) (format : String) (p : Pipeline) : Pipeline :=
  if format = "jpg" then { p with encode := .jpeg q.jpg false false }
  else if format = "webp" then { p with encode := .webp q.webp 4 }
  else if format = "avif" then { p with encode := .avif q.avif 4 }
  else p

/-- The resize stage of the benchmark:
`sharp(testImage).resize(80, 80, { fit: 'cover' })` — no `position` option. -/
def benchBasePipeline (testImage : String) : Pipeline :=
  { input := testImage
    width := 80
    height := 80
    fit := "cover"
    position := none
    encode := .fromExtension }

/-- `temp-test.<format>` — a bare relative path (current working directory),
not under `config.outputDir`. -/
def tempPathOf (format : String) : String :=
  "temp-test." ++ format

/-- `(n / 1024).toFixed(1)`, by exact decimal arithmetic (see `secondsStr`). -/
def kbStr (n : Nat) : String :=
  let t := (n * 10 + 512) / 1024
  toString (t / 10) ++ "." ++ toString (t % 10)

/-- One iteration of the benchmark loop: encode to `temp-test.<format>`,
stat it, push `{format, size, time}` onto `results`, then remove the temp
file; any failure in the `try` lands in the `catch`, which pushes
`{format, size: 'Error', time: e.message}`.  The success row is pushed
*before* `fs.remove`, so a remove rejection leaves the success row in place
and appends the error row after it — that format then has two rows.
Returns the rows pushed, the writes performed and the temp files removed. -/
def benchStep (cfg : Config) (env : BenchEnv) (testImage format : String) :
    List BenchRow × List WriteEvent × List String :=
  let tempPath := tempPathOf format
  let pipeline := benchApplyFormat cfg.quality format (benchBasePipeline testImage)
  match env.toFile tempPath pipeline with
  | .error e => ([⟨format, "Error", e⟩], [], [])
  | .ok _ =>
    match env.statSize tempPath with
    | .error e => ([⟨format, "Error", e⟩], [⟨tempPath, pipeline⟩], [])
    | .ok sz =>
      match env.removeFile tempPath with
      | .error e =>
        ([⟨format, kbStr sz ++ "KB", toString (env.elapsed format) ++ "ms"⟩,
            ⟨format, "Error", e⟩],
          [⟨tempPath, pipeline⟩], [])
      | .ok _ =>
        ([⟨format, kbStr sz ++ "KB", toString (env.elapsed format) ++ "ms"⟩],
          [⟨tempPath, pipeline⟩], [tempPath])

/-- The observable result of one `benchmarkFormats()` call.  `rows` is the
table passed to `console.table` (also present in `logs`), `none` when the
benchmark skipped or threw before reaching it; `thrown` is a rejection that
escapes the routine (only `fs.pathExists` sits outside every `try`). -/
structure BenchResult where
  logs : List LogLine
  writes : List WriteEvent
  removes : List String
  rows : Option (List BenchRow)
  thrown : Option String
deriving Repr

/-- `benchmarkFormats()`: no-op with a warning when `<inputDir>/1.jpg` is
absent; otherwise run one encode-stat-remove step per configured format,
collecting per-format failures as error rows, and print the table. -/
def benchmarkFormats (cfg : Config) (env : BenchEnv) : BenchResult :=
  let testImage := joinPath cfg.inputDir "1.jpg"
  match env.pathExists testImage with
  | .error e => ⟨[], [], [], none, some e⟩
  | .ok false =>
    ⟨[.warn "⚠️  Test image not found, skipping benchmark"], [], [], none, none⟩
  | .ok true =>
    let steps := cfg.formats.map (benchStep cfg env testImage)
    let rows := steps.flatMap (·.1)
    { logs := [.raw "\n🏃‍♂️ Benchmarking formats...", .table rows]
      writes := steps.flatMap (·.2.1)
      removes := steps.flatMap (·.2.2)
      rows := some rows
      thrown := none }

/-- The write that the `(file, size, format)` task performs when its
`toFile` call succeeds: output path `<outputDir>/<basename><suffix>.<format>`
and the cover-fit centered resize pipeline with that format's encode
options. -/
def expectedWrite (cfg : Config) (file : String) (size : SizeSpec)
    (format : String) : WriteEvent :=
  ⟨joinPath cfg.outputDir (parseName file ++ size.suffix ++ "." ++ format),
    applyFormat cfg.quality format (basePipeline (joinPath cfg.inputDir file) size)⟩

/-- The quality level carried by encode options, if an encoder was set. -/
def encodeQuality : EncodeOpts → Option Nat
  | .jpeg q _ _ => some q
  | .webp q _ => some q
  | .avif q _ => some q
  | .fromExtension => none

/-- The `config.quality` mapping as a lookup on format identifiers. -/
def qualityFor (q : Quality) (format : String) : Nat :=
  if format = "jpg" then q.jpg
  else if format = "webp" then q.webp
  else q.avif

/-- Recognizer for `console.error` lines. -/
def isErrorLine : LogLine → Bool
  | .errorLog _ => true
  | _ => false

/-- The reporting step as claim C4 words it: *both* directories are
re-scanned and the byte sizes of *the files found in each* are summed.  This
definition follows the claim's words (for comparison against
`generateThumbnails`, which sums the input side over the filtered image
files only); it is not a translation of the source. -/
def specReportC4 (cfg : Config) (env : FsEnv) : Option (Nat × Nat × Option Rat) :=
  match env.readdirInput, env.readdirOutput with
  | .ok inFiles, .ok outFiles =>
    match statAll env.statSize (inFiles.map (joinPath cfg.inputDir)),
        statAll env.statSize (outFiles.map (joinPath cfg.outputDir)) with
    | .ok a, .ok b => some (a.sum, b.sum, jsPercent a.sum b.sum)
    | _, _ => none
  | _, _ => none

/-- The observable result of the CLI entry point. -/
structure MainResult where
  logs : List LogLine
  exitCode : Nat
deriving Repr

/-- The `require.main === module` block:
`generateThumbnails().then(() => benchmarkFormats()).catch(console.error)`.
`process.exit(1)` inside `generateThumbnails` terminates immediately (the
benchmark never runs); a rejection from `benchmarkFormats` is logged by the
final `.catch` and the process still exits 0. -/
def mainRun (cfg : Config) (genEnv : FsEnv) (benchEnv : BenchEnv) : MainResult :=
  let banner : List LogLine :=
    [.raw "🖼️  Background Image Thumbnail Generator",
     .raw "=====================================\n"]
  let g := generateThumbnails cfg genEnv
  match g.exitCode with
  | some c => ⟨banner ++ g.logs, c⟩
  | none =>
    let b := benchmarkFormats cfg benchEnv
    match b.thrown with
    | some e => ⟨banner ++ g.logs ++ b.logs ++ [.errorLog e], 0⟩
    | none => ⟨banner ++ g.logs ++ b.logs, 0⟩

/-! Concrete configurations and environments used to evaluate the
definitions on closed inputs. -/

/-- A small configuration with distinguishable directories. -/
def wCfg : Config :=
  { inputDir := "in"
    outputDir := "out"
    sizes := [⟨80, 80, ""⟩, ⟨160, 160, "@2x"⟩]
    formats := ["jpg", "webp", "avif"]
    quality := ⟨85, 80, 70⟩ }

/-- An all-succeeding filesystem: one image file and one non-image file in
the input directory, one pre-existing file in the output directory. -/
def wEnv : FsEnv :=
  { ensureDirOk := .ok ()
    readdirInput := .ok ["a.jpg", "b.txt"]
    toFile := fun _ _ => .ok ()
    statSize := fun p =>
      if p = "in/a.jpg" then .ok 50 else if p = "in/b.txt" then .ok 50 else .ok 25
    readdirOutput := .ok ["t.jpg"]
    elapsedMs := 0 }

/-- Like `wEnv` but the encode of `out/a.jpg` fails. -/
def wEnvFail : FsEnv :=
  { wEnv with toFile := fun p _ => if p = "out/a.jpg" then .error "boom" else .ok () }

/-- A filesystem whose input directory holds no recognized image file. -/
def wEnvEmpty : FsEnv :=
  { wEnv with readdirInput := .ok ["b.txt"], readdirOutput := .ok [] }

/-- A filesystem whose input directory cannot be read. -/
def wEnvBad : FsEnv :=
  { wEnv with readdirInput := .error "ENOENT" }

/-- A benchmark environment that succeeds on every format. -/
def wBenchOk : BenchEnv :=
  { pathExists := fun _ => .ok true
    toFile := fun _ _ => .ok ()
    statSize := fun _ => .ok 100
    removeFile := fun _ => .ok ()
    elapsed := fun _ => 1 }

/-- Like `wBenchOk` but the jpg encode fails. -/
def wBenchFail : BenchEnv :=
  { wBenchOk with toFile := fun p _ => if p = "temp-test.jpg" then .error "boom" else .ok () }

/-- Like `wBenchOk` but the test image is absent. -/
def wBenchMissing : BenchEnv :=
  { wBenchOk with pathExists := fun _ => .ok false }

/-- Like `wBenchOk` but every `fs.stat` fails (after a successful encode). -/
def wBenchStatFail : BenchEnv :=
  { wBenchOk with statSize := fun _ => .error "EPERM" }

/-- Like `wBenchOk` but the existence check itself rejects. -/
def wBenchThrow : BenchEnv :=
  { wBenchOk with pathExists := fun _ => .error "EIO" }

/-! ### Helper lemmas -/

lemma string_eq_of_data {a b : String} (h : a.data = b.data) : a = b := by
  cases a
  cases b
  exact congrArg String.mk h

lemma string_append_cancel_left {a b c : String} (h : a ++ b = a ++ c) : b = c := by
  apply string_eq_of_data
  have hd : a.data ++ b.data = a.data ++ c.data := by
    simpa using congrArg String.data h
  exact List.append_cancel_left hd

lemma string_append_cancel_right {a b c : String} (h : a ++ c = b ++ c) : a = b := by
  apply string_eq_of_data
  have hd : a.data ++ c.data = b.data ++ c.data := by
    simpa using congrArg String.data h
  exact List.append_cancel_right hd

lemma joinPath_right_inj {d a b : String} (h : joinPath d a = joinPath d b) : a = b := by
  unfold joinPath at h
  exact string_append_cancel_left (string_append_cancel_left (by simpa [String.append_assoc] using h))

lemma flatMap_congr {α β : Type} {l : List α} {f g : α → List β}
    (h : ∀ a ∈ l, f a = g a) : l.flatMap f = l.flatMap g := by
  induction l with
  | nil => rfl
  | cons x xs ih =>
    simp only [List.flatMap_cons]
    rw [h x (by simp), ih fun a ha => h a (by simp [ha])]

lemma filterMap_eq_map_of_forall {α β : Type} {l : List α} {f : α → Option β}
    {g : α → β} (h : ∀ a ∈ l, f a = some (g a)) : l.filterMap f = l.map g := by
  induction l with
  | nil => rfl
  | cons x xs ih =>
    rw [List.filterMap_cons_some (h x (by simp)), List.map_cons,
      ih fun a ha => h a (by simp [ha])]

/-- `runTask` unfolded against `expectedWrite`. -/
lemma runTask_def (cfg : Config) (env : FsEnv) (f : String) (s : SizeSpec)
    (m : String) : runTask cfg env f s m =
    match env.toFile (expectedWrite cfg f s m).path (expectedWrite cfg f s m).pipeline with
    | .error e => ⟨[.taskFail (parseName f ++ s.suffix ++ "." ++ m) e], none, 0⟩
    | .ok _ =>
      match env.statSize (expectedWrite cfg f s m).path with
      | .error e =>
        ⟨[.taskFail (parseName f ++ s.suffix ++ "." ++ m) e], some (expectedWrite cfg f s m), 0⟩
      | .ok sz =>
        ⟨[.taskOk (parseName f ++ s.suffix ++ "." ++ m) sz], some (expectedWrite cfg f s m), 1⟩ :=
  rfl

lemma runTask_write_of_toFile_ok {cfg : Config} {env : FsEnv} {f : String}
    {s : SizeSpec} {m : String}
    (h : env.toFile (expectedWrite cfg f s m).path (expectedWrite cfg f s m).pipeline = .ok ()) :
    (runTask cfg env f s m).write = some (expectedWrite cfg f s m) := by
  rw [runTask_def, h]
  cases hst : env.statSize (expectedWrite cfg f s m).path <;> simp

lemma runTask_write_shape (cfg : Config) (env : FsEnv) (f : String) (s : SizeSpec)
    (m : String) : (runTask cfg env f s m).write = none ∨
    (runTask cfg env f s m).write = some (expectedWrite cfg f s m) := by
  rw [runTask_def]
  cases htf : env.toFile (expectedWrite cfg f s m).path (expectedWrite cfg f s m).pipeline
  · exact .inl rfl
  · cases hst : env.statSize (expectedWrite cfg f s m).path <;> simp

/-- The loop's writes, reassociated to one `filterMap` per format. -/
lemma loopWrites_eq (cfg : Config) (env : FsEnv) (imgs : List String) :
    loopWrites cfg env imgs = imgs.flatMap fun f => cfg.sizes.flatMap fun s =>
      cfg.formats.filterMap fun m => (runTask cfg env f s m).write := by
  unfold loopWrites fileOuts
  refine flatMap_congr fun f _ => ?_
  rw [List.filterMap_flatMap]
  refine flatMap_congr fun s _ => ?_
  rw [List.filterMap_map]
  rfl

/-- With every `toFile` succeeding, the loop writes exactly one
`expectedWrite` per `(file, size, format)` triple, in order. -/
lemma loopWrites_all_ok {cfg : Config} {env : FsEnv} {imgs : List String}
    (hOk : ∀ f ∈ imgs, ∀ s ∈ cfg.sizes, ∀ m ∈ cfg.formats,
      env.toFile (expectedWrite cfg f s m).path (expectedWrite cfg f s m).pipeline = .ok ()) :
    loopWrites cfg env imgs = imgs.flatMap fun f => cfg.sizes.flatMap fun s =>
      cfg.formats.map fun m => expectedWrite cfg f s m := by
  rw [loopWrites_eq]
  refine flatMap_congr fun f hf => ?_
  refine flatMap_congr fun s hs => ?_
  exact filterMap_eq_map_of_forall fun m hm =>
    runTask_write_of_toFile_ok (hOk f hf s hs m hm)

lemma length_flatMap_const {α β : Type} {l : List α} {f : α → List β} {k : Nat}
    (h : ∀ a ∈ l, (f a).length = k) : (l.flatMap f).length = l.length * k := by
  induction l with
  | nil => simp
  | cons x xs ih =>
    simp only [List.flatMap_cons, List.length_append, List.length_cons]
    rw [h x (by simp), ih fun a ha => h a (by simp [ha]), Nat.succ_mul, Nat.add_comm]

lemma applyFormat_input (q : Quality) (m : String) (p : Pipeline) :
    (applyFormat q m p).input = p.input := by
  unfold applyFormat
  split_ifs <;> rfl

lemma applyFormat_width (q : Quality) (m : String) (p : Pipeline) :
    (applyFormat q m p).width = p.width := by
  unfold applyFormat
  split_ifs <;> rfl

lemma applyFormat_height (q : Quality) (m : String) (p : Pipeline) :
    (applyFormat q m p).height = p.height := by
  unfold applyFormat
  split_ifs <;> rfl

lemma applyFormat_fit (q : Quality) (m : String) (p : Pipeline) :
    (applyFormat q m p).fit = p.fit := by
  unfold applyFormat
  split_ifs <;> rfl

lemma applyFormat_position (q : Quality) (m : String) (p : Pipeline) :
    (applyFormat q m p).position = p.position := by
  unfold applyFormat
  split_ifs <;> rfl

lemma applyFormat_quality {q : Quality} {m : String} (p : Pipeline)
    (hm : m = "jpg" ∨ m = "webp" ∨ m = "avif") :
    encodeQuality (applyFormat q m p).encode = some (qualityFor q m) := by
  rcases hm with h | h | h <;> subst h <;> rfl

lemma expectedWrite_fields (cfg : Config) (f : String) (s : SizeSpec) (m : String) :
    (expectedWrite cfg f s m).path
        = joinPath cfg.outputDir (parseName f ++ s.suffix ++ "." ++ m)
      ∧ (expectedWrite cfg f s m).pipeline.input = joinPath cfg.inputDir f
      ∧ (expectedWrite cfg f s m).pipeline.width = s.width
      ∧ (expectedWrite cfg f s m).pipeline.height = s.height
      ∧ (expectedWrite cfg f s m).pipeline.fit = "cover"
      ∧ (expectedWrite cfg f s m).pipeline.position = some "center" := by
  refine ⟨rfl, ?_, ?_, ?_, ?_, ?_⟩ <;>
    simp [expectedWrite, applyFormat_input, applyFormat_width, applyFormat_height,
      applyFormat_fit, applyFormat_position, basePipeline]

lemma mem_fileOuts {cfg : Config} {env : FsEnv} {f : String} {t : TaskOut} :
    t ∈ fileOuts cfg env f ↔
      ∃ s ∈ cfg.sizes, ∃ m ∈ cfg.formats, t = runTask cfg env f s m := by
  simp only [fileOuts, List.mem_flatMap, List.mem_map]
  constructor
  · rintro ⟨s, hs, m, hm, rfl⟩
    exact ⟨s, hs, m, hm, rfl⟩
  · rintro ⟨s, hs, m, hm, rfl⟩
    exact ⟨s, hs, m, hm, rfl⟩

lemma runTask_logs_shape {cfg : Config} {env : FsEnv} {f : String} {s : SizeSpec}
    {m : String} : ∀ l ∈ (runTask cfg env f s m).logs,
      (∃ e, l = .taskFail (parseName f ++ s.suffix ++ "." ++ m) e) ∨
      (∃ b, l = .taskOk (parseName f ++ s.suffix ++ "." ++ m) b) := by
  rw [runTask_def]
  cases htf : env.toFile (expectedWrite cfg f s m).path (expectedWrite cfg f s m).pipeline
  · simp
  · cases hst : env.statSize (expectedWrite cfg f s m).path <;> simp

lemma processing_mem_loopLogs {cfg : Config} {env : FsEnv} {imgs : List String}
    {f : String} (h : LogLine.processing f ∈ loopLogs cfg env imgs) : f ∈ imgs := by
  unfold loopLogs at h
  rw [List.mem_flatMap] at h
  obtain ⟨f', hf', hmem⟩ := h
  rcases List.mem_cons.mp hmem with heq | htail
  · cases heq
    exact hf'
  · rw [List.mem_flatMap] at htail
    obtain ⟨t, ht, hl⟩ := htail
    obtain ⟨s, _, m, _, rfl⟩ := mem_fileOuts.mp ht
    rcases runTask_logs_shape _ hl with ⟨e, he⟩ | ⟨b, hb⟩ <;> simp_all

lemma mem_loopWrites {cfg : Config} {env : FsEnv} {imgs : List String}
    {w : WriteEvent} (h : w ∈ loopWrites cfg env imgs) :
    ∃ f ∈ imgs, ∃ s ∈ cfg.sizes, ∃ m ∈ cfg.formats, w = expectedWrite cfg f s m := by
  rw [loopWrites_eq] at h
  rw [List.mem_flatMap] at h
  obtain ⟨f, hf, h⟩ := h
  rw [List.mem_flatMap] at h
  obtain ⟨s, hs, h⟩ := h
  rw [List.mem_filterMap] at h
  obtain ⟨m, hm, hw⟩ := h
  rcases runTask_write_shape cfg env f s m with hn | hsome
  · rw [hn] at hw
    cases hw
  · rw [hsome] at hw
    cases hw
    exact ⟨f, hf, s, hs, m, hm, rfl⟩

/-- The run under a fully successful reporting phase. -/
lemma generateThumbnails_ok_shape {cfg : Config} {env : FsEnv} {files : List String}
    {osz tsz : List Nat} {tfs : List String}
    (h1 : env.ensureDirOk = .ok ())
    (h2 : env.readdirInput = .ok files)
    (h3 : statAll env.statSize ((imageFilesOf files).map (joinPath cfg.inputDir)) = .ok osz)
    (h4 : env.readdirOutput = .ok tfs)
    (h5 : statAll env.statSize (tfs.map (joinPath cfg.outputDir)) = .ok tsz) :
    generateThumbnails cfg env =
      { logs := headerLogs cfg (imageFilesOf files) ++ loopLogs cfg env (imageFilesOf files)
          ++ summaryLogs cfg env (loopProcessed cfg env (imageFilesOf files))
          ++ [.savingsLine osz.sum tsz.sum]
        writes := loopWrites cfg env (imageFilesOf files)
        totalProcessed := loopProcessed cfg env (imageFilesOf files)
        report := some (osz.sum, tsz.sum, jsPercent osz.sum tsz.sum)
        exitCode := none } := by
  simp [generateThumbnails, h1, h2, h3, h4, h5]

lemma benchApplyFormat_input (q : Quality) (m : String) (p : Pipeline) :
    (benchApplyFormat q m p).input = p.input := by
  unfold benchApplyFormat
  split_ifs <;> rfl

/-- `benchStep` unfolded, with the `let`s inlined. -/
lemma benchStep_def (cfg : Config) (env : BenchEnv) (ti m : String) :
    benchStep cfg env ti m =
    match env.toFile (tempPathOf m) (benchApplyFormat cfg.quality m (benchBasePipeline ti)) with
    | .error e => ([⟨m, "Error", e⟩], [], [])
    | .ok _ =>
      match env.statSize (tempPathOf m) with
      | .error e =>
        ([⟨m, "Error", e⟩],
          [⟨tempPathOf m, benchApplyFormat cfg.quality m (benchBasePipeline ti)⟩], [])
      | .ok sz =>
        match env.removeFile (tempPathOf m) with
        | .error e =>
          ([⟨m, kbStr sz ++ "KB", toString (env.elapsed m) ++ "ms"⟩, ⟨m, "Error", e⟩],
            [⟨tempPathOf m, benchApplyFormat cfg.quality m (benchBasePipeline ti)⟩], [])
        | .ok _ =>
          ([⟨m, kbStr sz ++ "KB", toString (env.elapsed m) ++ "ms"⟩],
            [⟨tempPathOf m, benchApplyFormat cfg.quality m (benchBasePipeline ti)⟩],
            [tempPathOf m]) :=
  rfl

/-- Every format's loop iteration pushes at least one row. -/
lemma benchStep_rows_ne_nil (cfg : Config) (env : BenchEnv) (ti m : String) :
    (benchStep cfg env ti m).1 ≠ [] := by
  rw [benchStep_def]
  cases htf : env.toFile (tempPathOf m)
      (benchApplyFormat cfg.quality m (benchBasePipeline ti))
  · simp
  · cases hst : env.statSize (tempPathOf m)
    · simp
    · cases hrm : env.removeFile (tempPathOf m) <;> simp

lemma benchStep_removes_shape (cfg : Config) (env : BenchEnv) (ti m : String) :
    (benchStep cfg env ti m).2.2 = [] ∨ (benchStep cfg env ti m).2.2 = [tempPathOf m] := by
  rw [benchStep_def]
  cases htf : env.toFile (tempPathOf m)
      (benchApplyFormat cfg.quality m (benchBasePipeline ti))
  · exact .inl rfl
  · cases hst : env.statSize (tempPathOf m)
    · exact .inl rfl
    · cases hrm : env.removeFile (tempPathOf m)
      · exact .inl rfl
      · exact .inr rfl

lemma tempPathOf_inj {a b : String} (h : tempPathOf a = tempPathOf b) : a = b :=
  string_append_cancel_left h

/-! ### The claims -/

/-- C6: if the benchmark's test image does not exist, `benchmarkFormats`
returns without performing any resize/encode work and without raising an
error, emitting only the warning line. -/
theorem C6_benchmark_missing_image_noop (cfg : Config) (env : BenchEnv)
    (h : env.pathExists (joinPath cfg.inputDir "1.jpg") = .ok false) :
    benchmarkFormats cfg env =
      ⟨[.warn "⚠️  Test image not found, skipping benchmark"], [], [], none, none⟩ := by
  simp [benchmarkFormats, h]

theorem C6_witness :
    wBenchMissing.pathExists (joinPath wCfg.inputDir "1.jpg") = .ok false ∧
    benchmarkFormats wCfg wBenchMissing =
      ⟨[.warn "⚠️  Test image not found, skipping benchmark"], [], [], none, none⟩ :=
  ⟨rfl, C6_benchmark_missing_image_noop wCfg wBenchMissing rfl⟩

/-- C7: a per-format failure of the benchmark's encode (`toFile`) or `stat`
is recorded in the results table as the single row
`{format, size: 'Error', time: e.message}` in place of a size/time row, the
error is not raised, and the loop proceeds — the table is the concatenation
of every configured format's rows, in order, and every format contributes at
least one row.  (Rows are per loop iteration, not one per format: the success
row is pushed before `fs.remove`, so an iteration whose *remove* rejects
contributes both its size/time row and an error row.) -/
theorem C7_benchmark_per_format_failure (cfg : Config) (env : BenchEnv)
    (m e : String) (hm : m ∈ cfg.formats)
    (hex : env.pathExists (joinPath cfg.inputDir "1.jpg") = .ok true)
    (hfail :
      env.toFile (tempPathOf m)
          (benchApplyFormat cfg.quality m (benchBasePipeline (joinPath cfg.inputDir "1.jpg")))
        = .error e ∨
      (env.toFile (tempPathOf m)
          (benchApplyFormat cfg.quality m (benchBasePipeline (joinPath cfg.inputDir "1.jpg")))
        = .ok () ∧ env.statSize (tempPathOf m) = .error e)) :
    (benchmarkFormats cfg env).thrown = none ∧
    (benchmarkFormats cfg env).rows = some (cfg.formats.flatMap fun m' =>
      (benchStep cfg env (joinPath cfg.inputDir "1.jpg") m').1) ∧
    (benchStep cfg env (joinPath cfg.inputDir "1.jpg") m).1 = [BenchRow.mk m "Error" e] ∧
    BenchRow.mk m "Error" e ∈ (benchmarkFormats cfg env).rows.getD [] ∧
    ∀ m' ∈ cfg.formats, (benchStep cfg env (joinPath cfg.inputDir "1.jpg") m').1 ≠ [] := by
  have hrows : (benchmarkFormats cfg env).rows = some (cfg.formats.flatMap fun m' =>
      (benchStep cfg env (joinPath cfg.inputDir "1.jpg") m').1) := by
    simp [benchmarkFormats, hex, List.flatMap_map, Function.comp]
  have hrow : (benchStep cfg env (joinPath cfg.inputDir "1.jpg") m).1
      = [BenchRow.mk m "Error" e] := by
    rw [benchStep_def]
    rcases hfail with htf | ⟨htf, hst⟩
    · rw [htf]
    · rw [htf, hst]
  refine ⟨by simp [benchmarkFormats, hex], hrows, hrow, ?_,
    fun m' _ => benchStep_rows_ne_nil cfg env _ m'⟩
  rw [hrows]
  exact List.mem_flatMap.mpr ⟨m, hm, by rw [hrow]; simp⟩

theorem C7_witness :
    ("jpg" ∈ wCfg.formats ∧
      wBenchFail.pathExists (joinPath wCfg.inputDir "1.jpg") = .ok true ∧
      wBenchFail.toFile (tempPathOf "jpg")
          (benchApplyFormat wCfg.quality "jpg"
            (benchBasePipeline (joinPath wCfg.inputDir "1.jpg")))
        = .error "boom") ∧
    ((benchStep wCfg wBenchFail (joinPath wCfg.inputDir "1.jpg") "jpg").1
        = [BenchRow.mk "jpg" "Error" "boom"] ∧
      BenchRow.mk "jpg" "Error" "boom"
        ∈ (benchmarkFormats wCfg wBenchFail).rows.getD []) :=
  ⟨⟨by decide, rfl, rfl⟩,
    ⟨(C7_benchmark_per_format_failure wCfg wBenchFail "jpg" "boom" (by decide) rfl
        (.inl rfl)).2.2.1,
      (C7_benchmark_per_format_failure wCfg wBenchFail "jpg" "boom" (by decide) rfl
        (.inl rfl)).2.2.2.1⟩⟩

/-- C8: a top-level error in the batch conversion (the output directory
cannot be ensured, or the input directory cannot be read) is caught exactly
once — the run's `console.error` output is exactly the one `❌ Error:` line —
and `process.exit(1)` is called. -/
theorem C8_top_level_error (cfg : Config) (env : FsEnv) (e : String)
    (h : env.ensureDirOk = .error e ∨
      (env.ensureDirOk = .ok () ∧ env.readdirInput = .error e)) :
    (generateThumbnails cfg env).exitCode = some 1 ∧
    (generateThumbnails cfg env).logs.filter isErrorLine
      = [.errorLog ("❌ Error: " ++ e)] := by
  rcases h with h | ⟨h1, h2⟩
  · constructor <;> simp [generateThumbnails, h, topError, isErrorLine]
  · constructor <;> simp [generateThumbnails, h1, h2, topError, isErrorLine]

theorem C8_witness :
    (wEnvBad.ensureDirOk = .ok () ∧ wEnvBad.readdirInput = .error "ENOENT") ∧
    (generateThumbnails wCfg wEnvBad).exitCode = some 1 ∧
    (generateThumbnails wCfg wEnvBad).logs.filter isErrorLine
      = [.errorLog ("❌ Error: " ++ "ENOENT")] :=
  ⟨⟨rfl, rfl⟩, C8_top_level_error wCfg wEnvBad "ENOENT" (.inr ⟨rfl, rfl⟩)⟩

/-- C9: the benchmark's test image is `<inputDir>/1.jpg`; the per-format
temporary output is the bare relative path `temp-test.<format>` (current
working directory, not the output directory); and the temp file is removed
only on the fully successful path, so when `fs.stat` fails after a successful
encode the temp file has been written and is never removed. -/
theorem C9_temp_file_left_behind (cfg : Config) (env : BenchEnv) (m e : String)
    (hm : m ∈ cfg.formats)
    (hex : env.pathExists (joinPath cfg.inputDir "1.jpg") = .ok true)
    (htf : env.toFile (tempPathOf m)
        (benchApplyFormat cfg.quality m (benchBasePipeline (joinPath cfg.inputDir "1.jpg")))
      = .ok ())
    (hst : env.statSize (tempPathOf m) = .error e) :
    tempPathOf m = "temp-test." ++ m ∧
    (benchApplyFormat cfg.quality m
        (benchBasePipeline (joinPath cfg.inputDir "1.jpg"))).input
      = joinPath cfg.inputDir "1.jpg" ∧
    WriteEvent.mk (tempPathOf m)
        (benchApplyFormat cfg.quality m (benchBasePipeline (joinPath cfg.inputDir "1.jpg")))
      ∈ (benchmarkFormats cfg env).writes ∧
    tempPathOf m ∉ (benchmarkFormats cfg env).removes := by
  refine ⟨rfl, benchApplyFormat_input _ _ _, ?_, ?_⟩
  · simp only [benchmarkFormats, hex, List.flatMap_map, List.mem_flatMap]
    refine ⟨m, hm, ?_⟩
    rw [benchStep_def, htf, hst]
    simp
  · simp only [benchmarkFormats, hex, List.flatMap_map, List.mem_flatMap]
    rintro ⟨m', hm', hmem⟩
    rcases benchStep_removes_shape cfg env (joinPath cfg.inputDir "1.jpg") m' with h0 | h0 <;>
      rw [h0] at hmem
    · cases hmem
    · have heq : m = m' := tempPathOf_inj (List.mem_singleton.mp hmem)
      subst heq
      have h2 : (benchStep cfg env (joinPath cfg.inputDir "1.jpg") m).2.2 = [] := by
        rw [benchStep_def, htf, hst]
      rw [h2] at h0
      cases h0

theorem C9_witness :
    ("jpg" ∈ wCfg.formats ∧
      wBenchStatFail.pathExists (joinPath wCfg.inputDir "1.jpg") = .ok true ∧
      wBenchStatFail.statSize (tempPathOf "jpg") = .error "EPERM") ∧
    (WriteEvent.mk (tempPathOf "jpg")
        (benchApplyFormat wCfg.quality "jpg"
          (benchBasePipeline (joinPath wCfg.inputDir "1.jpg")))
      ∈ (benchmarkFormats wCfg wBenchStatFail).writes ∧
    tempPathOf "jpg" ∉ (benchmarkFormats wCfg wBenchStatFail).removes) :=
  ⟨⟨by decide, rfl, rfl⟩,
    (C9_temp_file_left_behind wCfg wBenchStatFail "jpg" "EPERM" (by decide) rfl rfl
      rfl).2.2⟩

/-- C10: once `generateThumbnails` finishes without a top-level error, an
error thrown by `benchmarkFormats` is caught by the final `.catch`, logged,
and the process still exits 0. -/
theorem C10_benchmark_failure_exits_zero (cfg : Config) (genEnv : FsEnv)
    (benchEnv : BenchEnv) (e : String)
    (hg : (generateThumbnails cfg genEnv).exitCode = none)
    (hb : benchEnv.pathExists (joinPath cfg.inputDir "1.jpg") = .error e) :
    (mainRun cfg genEnv benchEnv).exitCode = 0 ∧
    LogLine.errorLog e ∈ (mainRun cfg genEnv benchEnv).logs := by
  constructor <;> simp [mainRun, hg, benchmarkFormats, hb]

theorem C10_witness :
    ((generateThumbnails wCfg wEnv).exitCode = none ∧
      wBenchThrow.pathExists (joinPath wCfg.inputDir "1.jpg") = .error "EIO") ∧
    ((mainRun wCfg wEnv wBenchThrow).exitCode = 0 ∧
      LogLine.errorLog "EIO" ∈ (mainRun wCfg wEnv wBenchThrow).logs) :=
  ⟨⟨by decide, rfl⟩,
    C10_benchmark_failure_exits_zero wCfg wEnv wBenchThrow "EIO" (by decide) rfl⟩

/-- C3: with zero recognized input files the run generates zero thumbnails
(no writes, `totalProcessed = 0`), and the reporting step still divides by
the total original size — which is 0 — unconditionally, so the reported
percentage is not a finite number (`jsPercent 0 _ = none`, the model of the
JS `NaN`/`-Infinity` produced by the unguarded division). -/
theorem C3_zero_input_division (cfg : Config) (env : FsEnv) (files tfs : List String)
    (tsz : List Nat)
    (h1 : env.ensureDirOk = .ok ())
    (h2 : env.readdirInput = .ok files)
    (h0 : imageFilesOf files = [])
    (h4 : env.readdirOutput = .ok tfs)
    (h5 : statAll env.statSize (tfs.map (joinPath cfg.outputDir)) = .ok tsz) :
    (generateThumbnails cfg env).totalProcessed = 0 ∧
    (generateThumbnails cfg env).writes = [] ∧
    (generateThumbnails cfg env).report = some (0, tsz.sum, none) := by
  have h3 : statAll env.statSize ((imageFilesOf files).map (joinPath cfg.inputDir))
      = .ok [] := by
    rw [h0]
    rfl
  rw [generateThumbnails_ok_shape h1 h2 h3 h4 h5, h0]
  refine ⟨rfl, rfl, ?_⟩
  simp [loopProcessed, loopWrites, jsPercent]

theorem C3_witness :
    (wEnvEmpty.ensureDirOk = .ok () ∧ wEnvEmpty.readdirInput = .ok ["b.txt"] ∧
      imageFilesOf ["b.txt"] = [] ∧ wEnvEmpty.readdirOutput = .ok [] ∧
      statAll wEnvEmpty.statSize (([] : List String).map (joinPath wCfg.outputDir))
        = .ok []) ∧
    ((generateThumbnails wCfg wEnvEmpty).totalProcessed = 0 ∧
      (generateThumbnails wCfg wEnvEmpty).writes = [] ∧
      (generateThumbnails wCfg wEnvEmpty).report = some (0, ([] : List Nat).sum, none)) :=
  ⟨⟨rfl, rfl, rfl, rfl, rfl⟩,
    C3_zero_input_division wCfg wEnvEmpty ["b.txt"] [] [] rfl rfl rfl rfl rfl⟩

/-- C4 (counterexample): the claim says the reporting step re-scans *both*
directories and sums the byte sizes of *the files found in each*.  On a run
whose input directory holds an image file of 50 bytes and a non-image file of
50 bytes (with one 25-byte file in the output directory), the code reports
`totalOriginalSize = 50` — the sum over the filtered image files only — and a
50% reduction, while summing the files found in the input directory
(`specReportC4`, the claim's words) gives 100 bytes and a 75% reduction. -/
theorem C4_counterexample :
    (generateThumbnails wCfg wEnv).report = some (50, 25, some 50) ∧
    specReportC4 wCfg wEnv = some (100, 25, some 75) ∧
    (generateThumbnails wCfg wEnv).report ≠ specReportC4 wCfg wEnv := by
  have hjs1 : jsPercent 50 25 = some 50 := by
    rw [jsPercent]
    norm_num
  have hjs2 : jsPercent 100 25 = some 75 := by
    rw [jsPercent]
    norm_num
  have h1 : (generateThumbnails wCfg wEnv).report = some (50, 25, jsPercent 50 25) := rfl
  have h2 : specReportC4 wCfg wEnv = some (100, 25, jsPercent 100 25) := rfl
  rw [h1, h2, hjs1, hjs2]
  refine ⟨rfl, rfl, ?_⟩
  intro h
  have := (Prod.mk.injEq _ _ _ _).mp (Option.some.injEq _ _ ▸ h : (50, 25, some (50 : Rat)) = (100, 25, some 75))
  exact absurd this.1 (by norm_num)

/-- C4 (amended): after all tasks complete, the routine stats each recognized
image file from the initial input listing and sums their sizes, re-scans the
output directory and sums the sizes of all files found there, and reports
`(totalOriginalSize - totalThumbSize) / totalOriginalSize * 100` (computed
unguarded; non-finite when `totalOriginalSize = 0`). -/
theorem C4_report_formula (cfg : Config) (env : FsEnv) (files tfs : List String)
    (osz tsz : List Nat)
    (h1 : env.ensureDirOk = .ok ())
    (h2 : env.readdirInput = .ok files)
    (h3 : statAll env.statSize ((imageFilesOf files).map (joinPath cfg.inputDir)) = .ok osz)
    (h4 : env.readdirOutput = .ok tfs)
    (h5 : statAll env.statSize (tfs.map (joinPath cfg.outputDir)) = .ok tsz) :
    (generateThumbnails cfg env).report
      = some (osz.sum, tsz.sum, jsPercent osz.sum tsz.sum) ∧
    (osz.sum ≠ 0 → jsPercent osz.sum tsz.sum
      = some (((osz.sum : Rat) - (tsz.sum : Rat)) / (osz.sum : Rat) * 100)) := by
  rw [generateThumbnails_ok_shape h1 h2 h3 h4 h5]
  exact ⟨rfl, fun h => by simp [jsPercent, h]⟩

theorem C4_witness :
    (wEnv.ensureDirOk = .ok () ∧ wEnv.readdirInput = .ok ["a.jpg", "b.txt"] ∧
      statAll wEnv.statSize ((imageFilesOf ["a.jpg", "b.txt"]).map (joinPath wCfg.inputDir))
        = .ok [50] ∧
      wEnv.readdirOutput = .ok ["t.jpg"] ∧
      statAll wEnv.statSize (["t.jpg"].map (joinPath wCfg.outputDir)) = .ok [25]) ∧
    (generateThumbnails wCfg wEnv).report
      = some (([50] : List Nat).sum, ([25] : List Nat).sum,
          jsPercent ([50] : List Nat).sum ([25] : List Nat).sum) :=
  ⟨⟨rfl, rfl, rfl, rfl, rfl⟩,
    (C4_report_formula wCfg wEnv ["a.jpg", "b.txt"] ["t.jpg"] [50] [25]
      rfl rfl rfl rfl rfl).1⟩

lemma applyFormat_jpg (q : Quality) (p : Pipeline) :
    applyFormat q "jpg" p = { p with encode := .jpeg q.jpg true true } := rfl

lemma applyFormat_webp (q : Quality) (p : Pipeline) :
    applyFormat q "webp" p = { p with encode := .webp q.webp 6 } := rfl

lemma applyFormat_avif (q : Quality) (p : Pipeline) :
    applyFormat q "avif" p = { p with encode := .avif q.avif 4 } := rfl

/-- Within the recognized format set, the encode options determine the
format identifier. -/
lemma format_of_encode {q : Quality} {m₁ m₂ : String} {p₁ p₂ : Pipeline}
    (hm₁ : m₁ = "jpg" ∨ m₁ = "webp" ∨ m₁ = "avif")
    (hm₂ : m₂ = "jpg" ∨ m₂ = "webp" ∨ m₂ = "avif")
    (h : (applyFormat q m₁ p₁).encode = (applyFormat q m₂ p₂).encode) : m₁ = m₂ := by
  rcases hm₁ with h₁ | h₁ | h₁ <;> rcases hm₂ with h₂ | h₂ | h₂ <;> subst h₁ <;> subst h₂ <;>
    simp_all [applyFormat_jpg, applyFormat_webp, applyFormat_avif]

/-- Within the recognized format set, a `(file, size, format)` triple is
recoverable from its `expectedWrite` event. -/
lemma expectedWrite_inj {cfg : Config} {f₁ f₂ : String} {s₁ s₂ : SizeSpec}
    {m₁ m₂ : String}
    (hm₁ : m₁ = "jpg" ∨ m₁ = "webp" ∨ m₁ = "avif")
    (hm₂ : m₂ = "jpg" ∨ m₂ = "webp" ∨ m₂ = "avif")
    (h : expectedWrite cfg f₁ s₁ m₁ = expectedWrite cfg f₂ s₂ m₂) :
    f₁ = f₂ ∧ s₁ = s₂ ∧ m₁ = m₂ := by
  have hpath : (expectedWrite cfg f₁ s₁ m₁).path = (expectedWrite cfg f₂ s₂ m₂).path :=
    congrArg WriteEvent.path h
  have hpipe : (expectedWrite cfg f₁ s₁ m₁).pipeline = (expectedWrite cfg f₂ s₂ m₂).pipeline :=
    congrArg WriteEvent.pipeline h
  have hin : joinPath cfg.inputDir f₁ = joinPath cfg.inputDir f₂ := by
    have := congrArg Pipeline.input hpipe
    simpa [expectedWrite, applyFormat_input, basePipeline] using this
  have hf : f₁ = f₂ := joinPath_right_inj hin
  subst hf
  have hm : m₁ = m₂ :=
    @format_of_encode cfg.quality m₁ m₂
      (basePipeline (joinPath cfg.inputDir f₁) s₁)
      (basePipeline (joinPath cfg.inputDir f₁) s₂) hm₁ hm₂
      (congrArg Pipeline.encode hpipe)
  subst hm
  refine ⟨rfl, ?_, rfl⟩
  have hw : s₁.width = s₂.width := by
    have := congrArg Pipeline.width hpipe
    simpa [expectedWrite, applyFormat_width, basePipeline] using this
  have hh : s₁.height = s₂.height := by
    have := congrArg Pipeline.height hpipe
    simpa [expectedWrite, applyFormat_height, basePipeline] using this
  have hsx : s₁.suffix = s₂.suffix := by
    have hd := congrArg String.data hpath
    simp only [expectedWrite, joinPath, String.data_append, List.append_assoc] at hd
    have h2 := List.append_cancel_left
      (List.append_cancel_left (List.append_cancel_left hd))
    exact string_eq_of_data (List.append_cancel_right h2)
  cases s₁
  cases s₂
  simp_all

/-- The full expected write list of a run, one event per
`(file, size, format)` triple. -/
def expectedWrites (cfg : Config) (imgs : List String) : List WriteEvent :=
  imgs.flatMap fun f => cfg.sizes.flatMap fun s => cfg.formats.map fun m =>
    expectedWrite cfg f s m

lemma expectedWrites_nodup {cfg : Config} {imgs : List String}
    (hFmt : ∀ m ∈ cfg.formats, m = "jpg" ∨ m = "webp" ∨ m = "avif")
    (hi : imgs.Nodup) (hs : cfg.sizes.Nodup) (hf : cfg.formats.Nodup) :
    (expectedWrites cfg imgs).Nodup := by
  unfold expectedWrites
  rw [List.nodup_flatMap]
  constructor
  · intro f _
    rw [List.nodup_flatMap]
    constructor
    · intro s _
      refine List.Nodup.map_on ?_ hf
      intro m₁ hm₁ m₂ hm₂ he
      exact (expectedWrite_inj (hFmt m₁ hm₁) (hFmt m₂ hm₂) he).2.2
    · refine hs.imp ?_
      intro s₁ s₂ hne w hw₁ hw₂
      obtain ⟨m₁, hm₁, he₁⟩ := List.mem_map.mp hw₁
      obtain ⟨m₂, hm₂, he₂⟩ := List.mem_map.mp hw₂
      exact hne (expectedWrite_inj (hFmt m₁ hm₁) (hFmt m₂ hm₂) (he₁.trans he₂.symm)).2.1
  · refine hi.imp ?_
    intro f₁ f₂ hne w hw₁ hw₂
    obtain ⟨s₁, _, hw₁⟩ := List.mem_flatMap.mp hw₁
    obtain ⟨s₂, _, hw₂⟩ := List.mem_flatMap.mp hw₂
    obtain ⟨m₁, hm₁, he₁⟩ := List.mem_map.mp hw₁
    obtain ⟨m₂, hm₂, he₂⟩ := List.mem_map.mp hw₂
    exact hne (expectedWrite_inj (hFmt m₁ hm₁) (hFmt m₂ hm₂) (he₁.trans he₂.symm)).1

/-- The writes a run performs do not depend on the reporting phase. -/
lemma generateThumbnails_writes_eq {cfg : Config} {env : FsEnv} {files : List String}
    (h1 : env.ensureDirOk = .ok ())
    (h2 : env.readdirInput = .ok files) :
    (generateThumbnails cfg env).writes = loopWrites cfg env (imageFilesOf files) := by
  rcases h3 : statAll env.statSize ((imageFilesOf files).map (joinPath cfg.inputDir))
    with e | osz
  · simp [generateThumbnails, h1, h2, h3, topError]
  · rcases h4 : env.readdirOutput with e | tfs
    · simp [generateThumbnails, h1, h2, h3, h4, topError]
    · rcases h5 : statAll env.statSize (tfs.map (joinPath cfg.outputDir)) with e | tsz
      · simp [generateThumbnails, h1, h2, h3, h4, h5, topError]
      · simp [generateThumbnails, h1, h2, h3, h4, h5]

/-- The console output of a run is the banner, the loop output, the summary,
and a tail (the savings line or the top-level error line) that contains no
`Processing:` line. -/
lemma generateThumbnails_logs_shape {cfg : Config} {env : FsEnv} {files : List String}
    (h1 : env.ensureDirOk = .ok ())
    (h2 : env.readdirInput = .ok files) :
    ∃ tail : List LogLine,
      (generateThumbnails cfg env).logs =
        headerLogs cfg (imageFilesOf files) ++ loopLogs cfg env (imageFilesOf files)
          ++ summaryLogs cfg env (loopProcessed cfg env (imageFilesOf files)) ++ tail ∧
      ∀ f', LogLine.processing f' ∉ tail := by
  rcases h3 : statAll env.statSize ((imageFilesOf files).map (joinPath cfg.inputDir))
    with e | osz
  · exact ⟨[.errorLog ("❌ Error: " ++ e)],
      by simp [generateThumbnails, h1, h2, h3, topError], by simp⟩
  · rcases h4 : env.readdirOutput with e | tfs
    · exact ⟨[.errorLog ("❌ Error: " ++ e)],
        by simp [generateThumbnails, h1, h2, h3, h4, topError], by simp⟩
    · rcases h5 : statAll env.statSize (tfs.map (joinPath cfg.outputDir)) with e | tsz
      · exact ⟨[.errorLog ("❌ Error: " ++ e)],
          by simp [generateThumbnails, h1, h2, h3, h4, h5, topError], by simp⟩
      · exact ⟨[.savingsLine osz.sum tsz.sum],
          by simp [generateThumbnails, h1, h2, h3, h4, h5], by simp⟩

/-- A failing task's `❌ Failed:` line is in the loop's console output. -/
lemma taskFail_mem_loopLogs {cfg : Config} {env : FsEnv} {imgs : List String}
    {f : String} {s : SizeSpec} {m e : String}
    (hf : f ∈ imgs) (hs : s ∈ cfg.sizes) (hm : m ∈ cfg.formats)
    (hfail : env.toFile (expectedWrite cfg f s m).path (expectedWrite cfg f s m).pipeline
        = .error e ∨
      (env.toFile (expectedWrite cfg f s m).path (expectedWrite cfg f s m).pipeline
          = .ok () ∧
        env.statSize (expectedWrite cfg f s m).path = .error e)) :
    LogLine.taskFail (parseName f ++ s.suffix ++ "." ++ m) e ∈ loopLogs cfg env imgs := by
  unfold loopLogs
  rw [List.mem_flatMap]
  refine ⟨f, hf, List.mem_cons_of_mem _ ?_⟩
  rw [List.mem_flatMap]
  refine ⟨runTask cfg env f s m, mem_fileOuts.mpr ⟨s, hs, m, hm, rfl⟩, ?_⟩
  rcases hfail with htf | ⟨htf, hst⟩
  · rw [runTask_def, htf]
    simp
  · rw [runTask_def, htf, hst]
    simp

/-- A task whose `toFile` succeeds contributes its write to the loop. -/
lemma expectedWrite_mem_loopWrites {cfg : Config} {env : FsEnv} {imgs : List String}
    {f : String} {s : SizeSpec} {m : String}
    (hf : f ∈ imgs) (hs : s ∈ cfg.sizes) (hm : m ∈ cfg.formats)
    (htf : env.toFile (expectedWrite cfg f s m).path (expectedWrite cfg f s m).pipeline
      = .ok ()) :
    expectedWrite cfg f s m ∈ loopWrites cfg env imgs := by
  rw [loopWrites_eq]
  rw [List.mem_flatMap]
  refine ⟨f, hf, ?_⟩
  rw [List.mem_flatMap]
  refine ⟨s, hs, ?_⟩
  rw [List.mem_filterMap]
  exact ⟨m, hm, runTask_write_of_toFile_ok htf⟩

/-- C1: with the output directory ensured and the input directory readable,
and every task's encode/write succeeding, the run performs exactly one write
per `(image file, size, format)` triple: the write list is exactly one
`expectedWrite` per triple in iteration order; its length is
`sizes × formats` per input file; and each triple's single output file is
named `<basename><suffix>.<format>` in the output directory and contains the
source image resized to exactly `width × height` with cover fit centered,
encoded at the format's configured quality. -/
theorem C1_thumbnail_matrix (cfg : Config) (env : FsEnv) (files : List String)
    (h1 : env.ensureDirOk = .ok ())
    (h2 : env.readdirInput = .ok files)
    (hFmt : ∀ m ∈ cfg.formats, m = "jpg" ∨ m = "webp" ∨ m = "avif")
    (hOk : ∀ f ∈ imageFilesOf files, ∀ s ∈ cfg.sizes, ∀ m ∈ cfg.formats,
      env.toFile (expectedWrite cfg f s m).path (expectedWrite cfg f s m).pipeline = .ok ())
    (hnf : files.Nodup) (hns : cfg.sizes.Nodup) (hnm : cfg.formats.Nodup) :
    (generateThumbnails cfg env).writes = expectedWrites cfg (imageFilesOf files) ∧
    (generateThumbnails cfg env).writes.length
      = (imageFilesOf files).length * (cfg.sizes.length * cfg.formats.length) ∧
    ∀ f ∈ imageFilesOf files, ∀ s ∈ cfg.sizes, ∀ m ∈ cfg.formats,
      (generateThumbnails cfg env).writes.count (expectedWrite cfg f s m) = 1 ∧
      (expectedWrite cfg f s m).path
        = joinPath cfg.outputDir (parseName f ++ s.suffix ++ "." ++ m) ∧
      (expectedWrite cfg f s m).pipeline.input = joinPath cfg.inputDir f ∧
      (expectedWrite cfg f s m).pipeline.width = s.width ∧
      (expectedWrite cfg f s m).pipeline.height = s.height ∧
      (expectedWrite cfg f s m).pipeline.fit = "cover" ∧
      (expectedWrite cfg f s m).pipeline.position = some "center" ∧
      encodeQuality (expectedWrite cfg f s m).pipeline.encode
        = some (qualityFor cfg.quality m) := by
  have hw : (generateThumbnails cfg env).writes = expectedWrites cfg (imageFilesOf files) := by
    rw [generateThumbnails_writes_eq h1 h2, loopWrites_all_ok hOk]
    rfl
  refine ⟨hw, ?_, ?_⟩
  · rw [hw]
    unfold expectedWrites
    refine length_flatMap_const fun f _ => ?_
    refine length_flatMap_const fun s _ => ?_
    exact List.length_map _ _
  · intro f hf s hs m hm
    obtain ⟨hp, hi, hwd, hht, hfit, hpos⟩ := expectedWrite_fields cfg f s m
    refine ⟨?_, hp, hi, hwd, hht, hfit, hpos, applyFormat_quality _ (hFmt m hm)⟩
    rw [hw]
    refine List.count_eq_one_of_mem
      (expectedWrites_nodup hFmt (hnf.filter _) hns hnm) ?_
    unfold expectedWrites
    exact List.mem_flatMap.mpr ⟨f, hf,
      List.mem_flatMap.mpr ⟨s, hs, List.mem_map_of_mem _ hm⟩⟩

theorem C1_witness :
    (wEnv.ensureDirOk = .ok () ∧ wEnv.readdirInput = .ok ["a.jpg", "b.txt"] ∧
      (["a.jpg", "b.txt"] : List String).Nodup ∧ wCfg.sizes.Nodup ∧ wCfg.formats.Nodup) ∧
    (generateThumbnails wCfg wEnv).writes.length
      = (imageFilesOf ["a.jpg", "b.txt"]).length * (wCfg.sizes.length * wCfg.formats.length) :=
  ⟨⟨rfl, rfl, by decide, by decide, by decide⟩,
    (C1_thumbnail_matrix wCfg wEnv ["a.jpg", "b.txt"] rfl rfl (by decide)
      (fun _ _ _ _ _ _ => rfl) (by decide) (by decide) (by decide)).2.1⟩

/-- C2: when one `(file, size, format)` task's encode (`toFile`) or `stat`
fails, the failure is logged as `❌ Failed: <outputFilename> - <message>`,
the run is not aborted (given a healthy reporting phase, `process.exit` is
never called), and every other task whose own encode succeeds still performs
its write. -/
theorem C2_task_failure_isolated (cfg : Config) (env : FsEnv)
    (files tfs : List String) (osz tsz : List Nat)
    (f : String) (s : SizeSpec) (m e : String)
    (h1 : env.ensureDirOk = .ok ())
    (h2 : env.readdirInput = .ok files)
    (h3 : statAll env.statSize ((imageFilesOf files).map (joinPath cfg.inputDir)) = .ok osz)
    (h4 : env.readdirOutput = .ok tfs)
    (h5 : statAll env.statSize (tfs.map (joinPath cfg.outputDir)) = .ok tsz)
    (hf : f ∈ imageFilesOf files) (hs : s ∈ cfg.sizes) (hm : m ∈ cfg.formats)
    (hfail : env.toFile (expectedWrite cfg f s m).path (expectedWrite cfg f s m).pipeline
        = .error e ∨
      (env.toFile (expectedWrite cfg f s m).path (expectedWrite cfg f s m).pipeline
          = .ok () ∧
        env.statSize (expectedWrite cfg f s m).path = .error e)) :
    LogLine.taskFail (parseName f ++ s.suffix ++ "." ++ m) e
      ∈ (generateThumbnails cfg env).logs ∧
    (generateThumbnails cfg env).exitCode = none ∧
    ∀ f' ∈ imageFilesOf files, ∀ s' ∈ cfg.sizes, ∀ m' ∈ cfg.formats,
      env.toFile (expectedWrite cfg f' s' m').path (expectedWrite cfg f' s' m').pipeline
        = .ok () →
      expectedWrite cfg f' s' m' ∈ (generateThumbnails cfg env).writes := by
  rw [generateThumbnails_ok_shape h1 h2 h3 h4 h5]
  refine ⟨?_, rfl, ?_⟩
  · simp only [List.mem_append]
    exact .inl (.inl (.inr (taskFail_mem_loopLogs hf hs hm hfail)))
  · intro f' hf' s' hs' m' hm' htf
    exact expectedWrite_mem_loopWrites hf' hs' hm' htf

theorem C2_witness :
    (wEnvFail.ensureDirOk = .ok () ∧ wEnvFail.readdirInput = .ok ["a.jpg", "b.txt"] ∧
      "a.jpg" ∈ imageFilesOf ["a.jpg", "b.txt"] ∧
      (⟨80, 80, ""⟩ : SizeSpec) ∈ wCfg.sizes ∧ "jpg" ∈ wCfg.formats ∧
      wEnvFail.toFile (expectedWrite wCfg "a.jpg" ⟨80, 80, ""⟩ "jpg").path
          (expectedWrite wCfg "a.jpg" ⟨80, 80, ""⟩ "jpg").pipeline = .error "boom") ∧
    LogLine.taskFail (parseName "a.jpg" ++ "" ++ "." ++ "jpg") "boom"
      ∈ (generateThumbnails wCfg wEnvFail).logs :=
  ⟨⟨rfl, rfl, by decide, by decide, by decide, rfl⟩,
    (C2_task_failure_isolated wCfg wEnvFail ["a.jpg", "b.txt"] ["t.jpg"] [50] [25]
      "a.jpg" ⟨80, 80, ""⟩ "jpg" "boom" rfl rfl rfl rfl rfl (by decide) (by decide)
      (by decide) (.inl rfl)).1⟩

/-- C5: the input listing is filtered to exactly the extensions
`.jpg/.jpeg/.png/.webp`, compared case-insensitively; a file whose extension
is not in the set is not in the filtered list, gets no `Processing:` log
line, and no write of the run reads it (it contributes no thumbnail
tasks). -/
theorem C5_extension_whitelist (cfg : Config) (env : FsEnv) (files : List String)
    (f : String)
    (h1 : env.ensureDirOk = .ok ())
    (h2 : env.readdirInput = .ok files)
    (hnot : lowerStr (extname f) ∉ imageExts) :
    (∀ g, g ∈ imageFilesOf files ↔ g ∈ files ∧ lowerStr (extname g) ∈ imageExts) ∧
    f ∉ imageFilesOf files ∧
    LogLine.processing f ∉ (generateThumbnails cfg env).logs ∧
    ∀ w ∈ (generateThumbnails cfg env).writes,
      w.pipeline.input ≠ joinPath cfg.inputDir f := by
  have hchar : ∀ g, g ∈ imageFilesOf files ↔
      g ∈ files ∧ lowerStr (extname g) ∈ imageExts := by
    intro g
    simp [imageFilesOf, List.mem_filter, isImageFile]
  have hnotmem : f ∉ imageFilesOf files := fun hmem => hnot ((hchar f).mp hmem).2
  refine ⟨hchar, hnotmem, ?_, ?_⟩
  · obtain ⟨tail, hlogs, htail⟩ := generateThumbnails_logs_shape h1 h2
    rw [hlogs]
    intro hmem
    simp only [List.mem_append] at hmem
    rcases hmem with ((hh | hl) | hsm) | ht
    · simp [headerLogs] at hh
    · exact hnotmem (processing_mem_loopLogs hl)
    · simp [summaryLogs] at hsm
    · exact htail f ht
  · rw [generateThumbnails_writes_eq h1 h2]
    intro w hw heq
    obtain ⟨f', hf', s, _, m, _, rfl⟩ := mem_loopWrites hw
    have hin : (expectedWrite cfg f' s m).pipeline.input = joinPath cfg.inputDir f' :=
      (expectedWrite_fields cfg f' s m).2.1
    rw [hin] at heq
    exact hnotmem (joinPath_right_inj heq ▸ hf')

theorem C5_witness :
    (wEnv.ensureDirOk = .ok () ∧ wEnv.readdirInput = .ok ["a.jpg", "b.txt"] ∧
      lowerStr (extname "b.txt") ∉ imageExts) ∧
    ("b.txt" ∉ imageFilesOf ["a.jpg", "b.txt"] ∧
      LogLine.processing "b.txt" ∉ (generateThumbnails wCfg wEnv).logs) :=
  ⟨⟨rfl, rfl, by decide⟩,
    ⟨(C5_extension_whitelist wCfg wEnv ["a.jpg", "b.txt"] "b.txt" rfl rfl (by decide)).2.1,
      (C5_extension_whitelist wCfg wEnv ["a.jpg", "b.txt"] "b.txt" rfl rfl
        (by decide)).2.2.1⟩⟩

end WebImage
